import Mathlib

/-!
Shallow embedding of the social-media app's Django models
(`src/app/models.py` and `src/backend/app/models.py`).

User identities and profiles are one-to-one in the source (the `post_save`
signal provisions exactly one `Profile` per user), so both are modelled as a
single `Nat`.  The symmetrical `ManyToManyField("self")` behind
`Profile.friends` is modelled by the rows of its through table: Django stores
both directions of an edge and `add` only inserts the missing row(s).
Queryset operations that can raise (negative slicing, attribute access on an
anonymous user, the `unique_together` constraint hit by
`FriendRequest.objects.create`) are modelled with `Except Err`.
-/

/-- Status column of `FriendRequest` (`STATUS_CHOICES`). -/
inductive Status where
  | pending
  | accepted
  | rejected
  deriving DecidableEq, Repr

/-- A `FriendRequest` row: primary key, `sender`, `receiver`, `status`. -/
structure Req where
  id : Nat
  sender : Nat
  receiver : Nat
  status : Status
  deriving DecidableEq, Repr

/-- A `Post` row: primary key, `author`, and its `created_at` timestamp. -/
structure Post where
  id : Nat
  author : Nat
  createdAt : Nat
  deriving DecidableEq, Repr

/-- A `Comment` row: the post it is attached to, its author and its text. -/
structure CommentRec where
  postId : Nat
  author : Nat
  text : String
  deriving DecidableEq, Repr

/-- The durable database state the models read and write. -/
structure State where
  friends : List (Nat × Nat)
  requests : List Req
  nextId : Nat
  posts : List Post
  comments : List CommentRec
  deriving DecidableEq, Repr

/-- A request identity: Django's `AnonymousUser` or an authenticated user
(identified with their profile). -/
inductive Viewer where
  | anon
  | auth (u : Nat)
  deriving DecidableEq, Repr

/-- Exceptions the modelled code can raise. -/
inductive Err where
  | selfRequest
  | duplicateRequest
  | integrityError
  | negativeIndex
  | attributeError
  | permissionDenied
  deriving DecidableEq, Repr

/-- The empty database. -/
def initState : State := ⟨[], [], 0, [], []⟩

/-- Insert a through-table row unless it is already present (Django's
set-semantics `add` of a single direction). -/
def addRow (rows : List (Nat × Nat)) (p : Nat × Nat) : List (Nat × Nat) :=
  if p ∈ rows then rows else rows ++ [p]

/-- Django's symmetrical `friends.add(other)`: inserts the rows `(a, b)` and
`(b, a)` unless already present. -/
def m2mAdd (rows : List (Nat × Nat)) (a b : Nat) : List (Nat × Nat) :=
  addRow (addRow rows (a, b)) (b, a)

/-- `Profile.is_friend_with`: `self.friends.filter(pk=other_user.profile.pk).exists()`,
an existence check on the `(a, b)` through-table row. -/
def Profile.is_friend_with (s : State) (a b : Nat) : Bool :=
  decide ((a, b) ∈ s.friends)

/-- The pending-duplicate check of `send_friend_request`:
`FriendRequest.objects.filter(sender=..., receiver=..., status="pending").exists()`. -/
def hasPending (s : State) (a b : Nat) : Bool :=
  s.requests.any (fun r => decide (r.sender = a ∧ r.receiver = b ∧ r.status = Status.pending))

/-- Existence of any `FriendRequest` row for the ordered pair, whatever its
status; this is what `Meta.unique_together = ("sender", "receiver")` makes
the database enforce on INSERT. -/
def hasPair (s : State) (a b : Nat) : Bool :=
  s.requests.any (fun r => decide (r.sender = a ∧ r.receiver = b))

/-- `Profile.send_friend_request`: rejects self-requests, then rejects when a
pending request for the exact ordered pair exists, then calls
`FriendRequest.objects.create`.  The INSERT performed by `create` raises
`IntegrityError` when any row for the same `(sender, receiver)` pair already
exists, because of `Meta.unique_together`. -/
def Profile.send_friend_request (s : State) (sender toUser : Nat) : Except Err State :=
  if toUser = sender then .error .selfRequest
  else if hasPending s sender toUser then .error .duplicateRequest
  else if hasPair s sender toUser then .error .integrityError
  else .ok { s with
    requests := s.requests ++ [⟨s.nextId, sender, toUser, Status.pending⟩],
    nextId := s.nextId + 1 }

/-- `FriendRequest.accept` on the row with primary key `rid`: returns with no
change unless the status is pending; otherwise saves the accepted status and
runs `sender.profile.friends.add(receiver.profile)` followed by
`receiver.profile.friends.add(sender.profile)`. -/
def FriendRequest.accept (s : State) (rid : Nat) : State :=
  match s.requests.find? (fun q => decide (q.id = rid)) with
  | none => s
  | some r =>
    if r.status = Status.pending then
      { s with
        requests := s.requests.map
          (fun q => if q.id = rid then { q with status := Status.accepted } else q),
        friends := m2mAdd (m2mAdd s.friends r.sender r.receiver) r.receiver r.sender }
    else s

/-- `FriendRequest.reject` on the row with primary key `rid`: when pending it
assigns the in-memory status "rejected" (never saved) and deletes the row, so
the net database effect is removal; otherwise nothing happens. -/
def FriendRequest.reject (s : State) (rid : Nat) : State :=
  match s.requests.find? (fun q => decide (q.id = rid)) with
  | none => s
  | some r =>
    if r.status = Status.pending then
      { s with requests := s.requests.filter (fun q => decide (q.id ≠ rid)) }
    else s

/-- `FriendRequest.cancel` on the row with primary key `rid`: deletes the row
when pending, otherwise nothing happens. -/
def FriendRequest.cancel (s : State) (rid : Nat) : State :=
  match s.requests.find? (fun q => decide (q.id = rid)) with
  | none => s
  | some r =>
    if r.status = Status.pending then
      { s with requests := s.requests.filter (fun q => decide (q.id ≠ rid)) }
    else s

/-- Python slicing `l[(page-1)*size : page*size]` on a Django queryset:
a negative bound raises (Django forbids negative indexing), otherwise it is a
drop/take window. -/
def paginate {α : Type} (l : List α) (page size : Int) : Except Err (List α) :=
  let lo : Int := (page - 1) * size
  let hi : Int := page * size
  if lo < 0 ∨ hi < 0 then .error .negativeIndex
  else .ok ((l.drop lo.toNat).take (hi - lo).toNat)

/-- The friend list of `a` in through-table row order
(`self.friends.all()`, insertion-ordered). -/
def friendsList (s : State) (a : Nat) : List Nat :=
  (s.friends.filter (fun r => decide (r.1 = a))).map (fun r => r.2)

/-- Stable insertion of a post into a list sorted by `created_at` descending. -/
def insertDesc (p : Post) : List Post → List Post
  | [] => [p]
  | q :: qs => if p.createdAt ≤ q.createdAt then q :: insertDesc p qs else p :: q :: qs

/-- `order_by('-created_at')`: posts sorted by creation time descending. -/
def sortDesc : List Post → List Post
  | [] => []
  | p :: ps => insertDesc p (sortDesc ps)

/-- The owner's posts, newest first (`self.user.posts.all().order_by('-created_at')`). -/
def postsOf (s : State) (owner : Nat) : List Post :=
  sortDesc (s.posts.filter (fun p => decide (p.author = owner)))

/-- `Profile.visible_posts` of `src/app/models.py`: anonymous viewers get
`posts.none()`; the owner and friends get the paginated post list; everyone
else gets `posts.none()`. -/
def AppProfile.visible_posts (s : State) (owner : Nat) (viewer : Viewer)
    (page size : Int) : Except Err (List Post) :=
  match viewer with
  | .anon => .ok []
  | .auth v =>
    if v = owner ∨ Profile.is_friend_with s owner v then
      paginate (postsOf s owner) page size
    else .ok []

/-- `Profile.visible_posts` of `src/backend/app/models.py`: there is no
authentication check, so `viewer == self.user` is false for an anonymous
viewer and `self.is_friend_with(viewer)` then dereferences `viewer.profile`,
which raises `AttributeError` on `AnonymousUser`. -/
def BackendProfile.visible_posts (s : State) (owner : Nat) (viewer : Viewer)
    (page size : Int) : Except Err (List Post) :=
  match viewer with
  | .anon => .error .attributeError
  | .auth v =>
    if v = owner ∨ Profile.is_friend_with s owner v then
      paginate (postsOf s owner) page size
    else .ok []

/-- `Profile.get_mutual_friends` (backend only): empty for anonymous viewers
and for `viewer == self.user`; otherwise the queryset intersection
`self.friends.all() & viewer.profile.friends.all()`. -/
def BackendProfile.get_mutual_friends (s : State) (owner : Nat) (viewer : Viewer) :
    List Nat :=
  match viewer with
  | .anon => []
  | .auth v =>
    if v = owner then []
    else (friendsList s owner).filter (fun x => decide (x ∈ friendsList s v))

/-- `Profile.mutual_friend_count` (backend only). -/
def BackendProfile.mutual_friend_count (s : State) (owner : Nat) (viewer : Viewer) : Nat :=
  (BackendProfile.get_mutual_friends s owner viewer).length

/-- `Profile.friend_count` (backend only): `self.friends.count()`. -/
def BackendProfile.friend_count (s : State) (owner : Nat) : Nat :=
  (friendsList s owner).length

/-- `Profile.get_friends` (backend only): `None` or anonymous viewers get
`friends.none()`; the owner and friends get the full friend list paginated;
other authenticated viewers get the mutual-friends view paginated. -/
def BackendProfile.get_friends (s : State) (owner : Nat) (viewer : Option Viewer)
    (page size : Int) : Except Err (List Nat) :=
  match viewer with
  | none => .ok []
  | some .anon => .ok []
  | some (.auth v) =>
    if v = owner ∨ Profile.is_friend_with s owner v then
      paginate (friendsList s owner) page size
    else
      paginate (BackendProfile.get_mutual_friends s owner (.auth v)) page size

/-- `Comment.can_user_comment`: the post's author may comment, otherwise
`user.profile.is_friend_with(post_author)` decides. -/
def Comment.can_user_comment (s : State) (post : Post) (user : Nat) : Bool :=
  if user = post.author then true
  else Profile.is_friend_with s user post.author

/-- Modelled from the spec: the `addComment` write path is not part of
`src/` (it lives in the views layer); per the spec it must call
`canComment` and fail with `PermissionDeniedError` before persisting when the
predicate is false, leaving the comment store unchanged. -/
def addComment (s : State) (post : Post) (user : Nat) (text : String) :
    State × Option Err :=
  if Comment.can_user_comment s post user then
    ({ s with comments := s.comments ++ [⟨post.id, user, text⟩] }, none)
  else (s, some .permissionDenied)

/-- Run `send_friend_request` as a state transition: a raised exception
leaves the database unchanged. -/
def sendRun (s : State) (a b : Nat) : State :=
  match Profile.send_friend_request s a b with
  | .ok s2 => s2
  | .error _ => s

/-- The database states reachable through the friend-request state machine,
the only writer of the friend graph. -/
inductive Reachable : State → Prop where
  | init : Reachable initState
  | send (s : State) (a b : Nat) : Reachable s → Reachable (sendRun s a b)
  | accept (s : State) (rid : Nat) : Reachable s → Reachable (FriendRequest.accept s rid)
  | reject (s : State) (rid : Nat) : Reachable s → Reachable (FriendRequest.reject s rid)
  | cancel (s : State) (rid : Nat) : Reachable s → Reachable (FriendRequest.cancel s rid)

/-- The friend graph stores the reverse of every row. -/
def SymmetricFriends (s : State) : Prop :=
  ∀ a b : Nat, (a, b) ∈ s.friends → (b, a) ∈ s.friends

/-- No profile is in its own friend set. -/
def IrreflexiveFriends (s : State) : Prop :=
  ∀ a : Nat, (a, a) ∉ s.friends

/-- Every stored request relates two distinct identities. -/
def RequestsOk (s : State) : Prop :=
  ∀ r ∈ s.requests, r.sender ≠ r.receiver

/-- The state invariant maintained by the friend-request state machine. -/
def GraphInv (s : State) : Prop :=
  SymmetricFriends s ∧ s.friends.Nodup ∧ IrreflexiveFriends s ∧ RequestsOk s

/-- The visible-friends listing as the spec words it: the full friend list,
paginated, for the owner and friends; the intersection of the owner's and the
viewer's friend sets, paginated, for other authenticated viewers. -/
def visibleFriendsSpec (s : State) (owner v : Nat) (page size : Int) :
    Except Err (List Nat) :=
  if v = owner ∨ (owner, v) ∈ s.friends then
    paginate (friendsList s owner) page size
  else
    paginate ((friendsList s owner).filter (fun x => decide (x ∈ friendsList s v))) page size

/-- State after `send(0, 1)`: one pending request with primary key 0. -/
def sPending : State := sendRun initState 0 1

/-- State after `send(0, 1)` then `accept`: profiles 0 and 1 are friends and
the accepted request row is retained. -/
def sAccepted : State := FriendRequest.accept sPending 0

/-! ### Helper lemmas about the friend-graph primitives -/

theorem mem_addRow_iff {rows : List (Nat × Nat)} {p q : Nat × Nat} :
    q ∈ addRow rows p ↔ q ∈ rows ∨ q = p := by
  unfold addRow
  by_cases h : p ∈ rows
  · simp only [if_pos h]
    constructor
    · exact Or.inl
    · rintro (hq | rfl)
      · exact hq
      · exact h
  · simp [if_neg h]

theorem addRow_nodup (rows : List (Nat × Nat)) (p : Nat × Nat) (h : rows.Nodup) :
    (addRow rows p).Nodup := by
  unfold addRow
  by_cases hp : p ∈ rows
  · simpa [if_pos hp] using h
  · simp only [if_neg hp]
    refine List.Nodup.append h (List.nodup_singleton p) ?_
    intro x hx hxp
    rw [List.mem_singleton] at hxp
    exact hp (hxp ▸ hx)

theorem mem_m2mAdd_iff {rows : List (Nat × Nat)} {a b : Nat} {q : Nat × Nat} :
    q ∈ m2mAdd rows a b ↔ q ∈ rows ∨ q = (a, b) ∨ q = (b, a) := by
  unfold m2mAdd
  rw [mem_addRow_iff, mem_addRow_iff]
  tauto

theorem m2mAdd_mem_left (rows : List (Nat × Nat)) (a b : Nat) :
    (a, b) ∈ m2mAdd rows a b :=
  mem_m2mAdd_iff.mpr (Or.inr (Or.inl rfl))

theorem m2mAdd_mem_right (rows : List (Nat × Nat)) (a b : Nat) :
    (b, a) ∈ m2mAdd rows a b :=
  mem_m2mAdd_iff.mpr (Or.inr (Or.inr rfl))

theorem m2mAdd_mono (rows : List (Nat × Nat)) (a b : Nat) {q : Nat × Nat}
    (h : q ∈ rows) : q ∈ m2mAdd rows a b :=
  mem_m2mAdd_iff.mpr (Or.inl h)

theorem m2mAdd_nodup (rows : List (Nat × Nat)) (a b : Nat) (h : rows.Nodup) :
    (m2mAdd rows a b).Nodup :=
  addRow_nodup _ _ (addRow_nodup _ _ h)

theorem m2mAdd_symm (rows : List (Nat × Nat)) (a b : Nat)
    (hsym : ∀ x y : Nat, (x, y) ∈ rows → (y, x) ∈ rows) :
    ∀ x y : Nat, (x, y) ∈ m2mAdd rows a b → (y, x) ∈ m2mAdd rows a b := by
  intro x y hxy
  rcases mem_m2mAdd_iff.mp hxy with h | h | h
  · exact m2mAdd_mono rows a b (hsym x y h)
  · rw [Prod.ext_iff] at h
    obtain ⟨rfl, rfl⟩ := h
    exact m2mAdd_mem_right rows x y
  · rw [Prod.ext_iff] at h
    obtain ⟨rfl, rfl⟩ := h
    exact m2mAdd_mem_left rows y x

theorem friendsList_nodup (s : State) (h : s.friends.Nodup) (a : Nat) :
    (friendsList s a).Nodup := by
  unfold friendsList
  refine List.Nodup.map_on ?_ (h.filter _)
  intro x hx y hy hxy
  have hx1 : x.1 = a := by simpa using (List.mem_filter.mp hx).2
  have hy1 : y.1 = a := by simpa using (List.mem_filter.mp hy).2
  exact Prod.ext_iff.mpr ⟨hx1.trans hy1.symm, hxy⟩

theorem find_of_map_accept (l : List Req) (rid : Nat) (r : Req)
    (h : l.find? (fun q => decide (q.id = rid)) = some r) :
    (l.map (fun q => if q.id = rid then { q with status := Status.accepted } else q)).find?
      (fun q => decide (q.id = rid)) = some { r with status := Status.accepted } := by
  induction l with
  | nil => simp at h
  | cons q l ih =>
    by_cases hq : q.id = rid
    · rw [List.find?_cons_of_pos _ (by simpa using hq)] at h
      injection h with h
      subst h
      simp only [List.map_cons, if_pos hq]
      exact List.find?_cons_of_pos _ (by simpa using hq)
    · rw [List.find?_cons_of_neg _ (by simpa using hq)] at h
      simp only [List.map_cons, if_neg hq]
      rw [List.find?_cons_of_neg _ (by simpa using hq)]
      exact ih h

theorem find?_append_left_none {α : Type} (p : α → Bool) (l1 l2 : List α)
    (h : l1.find? p = none) : (l1 ++ l2).find? p = l2.find? p := by
  induction l1 with
  | nil => rfl
  | cons x l ih =>
    by_cases hx : p x
    · rw [List.find?_cons_of_pos _ hx] at h
      cases h
    · rw [List.find?_cons_of_neg _ hx] at h
      rw [List.cons_append, List.find?_cons_of_neg _ hx]
      exact ih h

theorem send_cases (s : State) (a b : Nat) (s2 : State)
    (h : Profile.send_friend_request s a b = Except.ok s2) :
    b ≠ a ∧ s2.friends = s.friends ∧
    s2.requests = s.requests ++ [⟨s.nextId, a, b, Status.pending⟩] ∧
    s2.nextId = s.nextId + 1 := by
  unfold Profile.send_friend_request at h
  split_ifs at h with h1 h2 h3
  injection h with h4
  subst h4
  exact ⟨h1, rfl, rfl, rfl⟩

theorem m2mAdd_irrefl_aux {rows : List (Nat × Nat)} {a b : Nat} (hab : a ≠ b)
    (h : ∀ c : Nat, (c, c) ∉ rows) : ∀ c : Nat, (c, c) ∉ m2mAdd rows a b := by
  intro c hc
  rcases mem_m2mAdd_iff.mp hc with h1 | h1 | h1
  · exact h c h1
  · rw [Prod.ext_iff] at h1
    exact hab (h1.1.symm.trans h1.2)
  · rw [Prod.ext_iff] at h1
    exact hab (h1.2.symm.trans h1.1)

theorem graphInv_init : GraphInv initState := by
  refine ⟨?_, ?_, ?_, ?_⟩
  · intro a b h
    simp [initState] at h
  · simp [initState]
  · intro a h
    simp [initState] at h
  · intro r h
    simp [initState] at h

theorem graphInv_sendRun (s : State) (a b : Nat) (h : GraphInv s) :
    GraphInv (sendRun s a b) := by
  unfold sendRun
  cases hs : Profile.send_friend_request s a b with
  | error e => exact h
  | ok s2 =>
    obtain ⟨hab, hf, hr, _⟩ := send_cases s a b s2 hs
    obtain ⟨h1, h2, h3, h4⟩ := h
    refine ⟨?_, ?_, ?_, ?_⟩
    · intro x y hxy
      rw [hf] at hxy ⊢
      exact h1 x y hxy
    · rw [hf]; exact h2
    · intro x hx
      rw [hf] at hx
      exact h3 x hx
    · intro r hrr
      rw [hr] at hrr
      rcases List.mem_append.mp hrr with hm | hm
      · exact h4 r hm
      · rw [List.mem_singleton] at hm
        subst hm
        exact fun he => hab he.symm

theorem graphInv_accept (s : State) (rid : Nat) (h : GraphInv s) :
    GraphInv (FriendRequest.accept s rid) := by
  unfold FriendRequest.accept
  cases hf : s.requests.find? (fun q => decide (q.id = rid)) with
  | none => exact h
  | some r =>
    by_cases hp : r.status = Status.pending
    · simp only [if_pos hp]
      obtain ⟨h1, h2, h3, h4⟩ := h
      have hrmem : r ∈ s.requests := List.mem_of_find?_eq_some hf
      have hsr : r.sender ≠ r.receiver := h4 r hrmem
      refine ⟨?_, ?_, ?_, ?_⟩
      · exact m2mAdd_symm _ _ _ (m2mAdd_symm _ _ _ h1)
      · exact m2mAdd_nodup _ _ _ (m2mAdd_nodup _ _ _ h2)
      · exact fun c => (m2mAdd_irrefl_aux hsr.symm (m2mAdd_irrefl_aux hsr h3)) c
      · intro q hq
        rw [List.mem_map] at hq
        obtain ⟨q0, hq0, rfl⟩ := hq
        by_cases hid : q0.id = rid
        · rw [if_pos hid]
          exact h4 q0 hq0
        · rw [if_neg hid]
          exact h4 q0 hq0
    · simp only [if_neg hp]
      exact h

theorem graphInv_reject (s : State) (rid : Nat) (h : GraphInv s) :
    GraphInv (FriendRequest.reject s rid) := by
  unfold FriendRequest.reject
  cases hf : s.requests.find? (fun q => decide (q.id = rid)) with
  | none => exact h
  | some r =>
    by_cases hp : r.status = Status.pending
    · simp only [if_pos hp]
      obtain ⟨h1, h2, h3, h4⟩ := h
      exact ⟨h1, h2, h3, fun q hq => h4 q (List.mem_of_mem_filter hq)⟩
    · simp only [if_neg hp]
      exact h

theorem graphInv_cancel (s : State) (rid : Nat) (h : GraphInv s) :
    GraphInv (FriendRequest.cancel s rid) := by
  unfold FriendRequest.cancel
  cases hf : s.requests.find? (fun q => decide (q.id = rid)) with
  | none => exact h
  | some r =>
    by_cases hp : r.status = Status.pending
    · simp only [if_pos hp]
      obtain ⟨h1, h2, h3, h4⟩ := h
      exact ⟨h1, h2, h3, fun q hq => h4 q (List.mem_of_mem_filter hq)⟩
    · simp only [if_neg hp]
      exact h

/-! ### Claim theorems -/

/-- C2: in every state reachable through the friend-request state machine the
friend graph is symmetric (a profile is in another's friend set exactly when
the converse holds), duplicate-free (no profile appears twice in any friend
set) and irreflexive (no profile is in its own friend set); and after adding
the friend edge `(a, b)` both `is_friend_with a b` and `is_friend_with b a`
hold. -/
theorem friend_graph_invariant :
    (∀ s : State, Reachable s →
      (∀ a b : Nat, ((a, b) ∈ s.friends ↔ (b, a) ∈ s.friends)) ∧
      (∀ a : Nat, (friendsList s a).Nodup) ∧
      (∀ a : Nat, (a, a) ∉ s.friends)) ∧
    (∀ (s : State) (a b : Nat),
      Profile.is_friend_with { s with friends := m2mAdd s.friends a b } a b = true ∧
      Profile.is_friend_with { s with friends := m2mAdd s.friends a b } b a = true) := by
  constructor
  · intro s hreach
    have hinv : GraphInv s := by
      induction hreach with
      | init => exact graphInv_init
      | send s a b hr ih => exact graphInv_sendRun s a b ih
      | accept s rid hr ih => exact graphInv_accept s rid ih
      | reject s rid hr ih => exact graphInv_reject s rid ih
      | cancel s rid hr ih => exact graphInv_cancel s rid ih
    obtain ⟨h1, h2, h3, _⟩ := hinv
    exact ⟨fun a b => ⟨h1 a b, h1 b a⟩, fun a => friendsList_nodup s h2 a, h3⟩
  · intro s a b
    constructor
    · simp only [Profile.is_friend_with, decide_eq_true_eq]
      exact m2mAdd_mem_left s.friends a b
    · simp only [Profile.is_friend_with, decide_eq_true_eq]
      exact m2mAdd_mem_right s.friends a b

/-- Witness for C2 at the state reached by `send(0, 1)` then `accept`. -/
theorem friend_graph_invariant_holds :
    (∀ a b : Nat, ((a, b) ∈ sAccepted.friends ↔ (b, a) ∈ sAccepted.friends)) ∧
    (∀ a : Nat, (friendsList sAccepted a).Nodup) ∧
    (∀ a : Nat, (a, a) ∉ sAccepted.friends) :=
  friend_graph_invariant.1 sAccepted
    (Reachable.accept sPending 0 (Reachable.send initState 0 1 Reachable.init))

/-- C1: `accept` leaves the database unchanged when the request's status is
not pending; on a pending request it stores the accepted status on the same
row and makes sender and receiver mutual friends. -/
theorem accept_spec (s : State) (rid : Nat) (r : Req)
    (hfind : s.requests.find? (fun q => decide (q.id = rid)) = some r) :
    (r.status ≠ Status.pending → FriendRequest.accept s rid = s) ∧
    (r.status = Status.pending →
      (FriendRequest.accept s rid).requests.find? (fun q => decide (q.id = rid)) =
        some { r with status := Status.accepted } ∧
      Profile.is_friend_with (FriendRequest.accept s rid) r.sender r.receiver = true ∧
      Profile.is_friend_with (FriendRequest.accept s rid) r.receiver r.sender = true) := by
  have heq : FriendRequest.accept s rid =
      if r.status = Status.pending then
        { s with
          requests := s.requests.map
            (fun q => if q.id = rid then { q with status := Status.accepted } else q),
          friends := m2mAdd (m2mAdd s.friends r.sender r.receiver) r.receiver r.sender }
      else s := by
    unfold FriendRequest.accept
    rw [hfind]
  constructor
  · intro hnp
    rw [heq, if_neg hnp]
  · intro hp
    rw [heq, if_pos hp]
    refine ⟨find_of_map_accept _ _ _ hfind, ?_, ?_⟩
    · simp only [Profile.is_friend_with, decide_eq_true_eq]
      exact m2mAdd_mono _ _ _ (m2mAdd_mem_left _ _ _)
    · simp only [Profile.is_friend_with, decide_eq_true_eq]
      exact m2mAdd_mem_left _ _ _

/-- Witness for C1 at the pending request created by `send(0, 1)`. -/
theorem accept_spec_holds :
    (FriendRequest.accept sPending 0).requests.find? (fun q => decide (q.id = 0)) =
      some ⟨0, 0, 1, Status.accepted⟩ ∧
    Profile.is_friend_with (FriendRequest.accept sPending 0) 0 1 = true ∧
    Profile.is_friend_with (FriendRequest.accept sPending 0) 1 0 = true :=
  (accept_spec sPending 0 ⟨0, 0, 1, Status.pending⟩ (by decide)).2 rfl

/-- C3 counterexample: in the backend variant an anonymous viewer does not
get an empty sequence — `self.is_friend_with(viewer)` dereferences
`viewer.profile`, which `AnonymousUser` does not have, raising
`AttributeError`. -/
theorem backend_visible_posts_anon_raises :
    BackendProfile.visible_posts initState 0 Viewer.anon 1 10 =
      Except.error Err.attributeError := rfl

/-- C3 as amended: a viewer that is neither the owner nor a friend gets an
empty sequence without an exception — in the app variant for anonymous
viewers too, in the backend variant only for authenticated viewers, since
there an anonymous viewer raises `AttributeError`. -/
theorem visible_posts_denied_empty :
    (∀ (s : State) (owner : Nat) (page size : Int),
      AppProfile.visible_posts s owner Viewer.anon page size = Except.ok []) ∧
    (∀ (s : State) (owner v : Nat) (page size : Int),
      v ≠ owner → Profile.is_friend_with s owner v = false →
      AppProfile.visible_posts s owner (Viewer.auth v) page size = Except.ok [] ∧
      BackendProfile.visible_posts s owner (Viewer.auth v) page size = Except.ok []) ∧
    (∀ (s : State) (owner : Nat) (page size : Int),
      BackendProfile.visible_posts s owner Viewer.anon page size =
        Except.error Err.attributeError) := by
  refine ⟨fun s owner page size => rfl, ?_, fun s owner page size => rfl⟩
  intro s owner v page size hvo hnf
  have hcond : ¬ (v = owner ∨ Profile.is_friend_with s owner v = true) := by
    rintro (h | h)
    · exact hvo h
    · rw [hnf] at h
      cases h
  constructor
  · show (if v = owner ∨ Profile.is_friend_with s owner v = true then
        paginate (postsOf s owner) page size else Except.ok []) = Except.ok []
    rw [if_neg hcond]
  · show (if v = owner ∨ Profile.is_friend_with s owner v = true then
        paginate (postsOf s owner) page size else Except.ok []) = Except.ok []
    rw [if_neg hcond]

/-- Witness for the amended C3: profile 2 is a stranger to profile 0 in the
state where 0 and 1 are friends. -/
theorem visible_posts_denied_empty_holds :
    AppProfile.visible_posts sAccepted 0 (Viewer.auth 2) 1 10 = Except.ok [] ∧
    BackendProfile.visible_posts sAccepted 0 (Viewer.auth 2) 1 10 = Except.ok [] :=
  visible_posts_denied_empty.2.1 sAccepted 0 2 1 10 (by decide) (by decide)

/-- C4: for distinct profiles, `get_mutual_friends` is exactly the
intersection of the two friend sets; as a set it is symmetric in its
arguments; and it is empty — never an error — when the two profiles coincide
or either friend set is empty. -/
theorem mutual_friends_spec (s : State) (a b : Nat) :
    (b ≠ a → ∀ x : Nat,
      x ∈ BackendProfile.get_mutual_friends s a (Viewer.auth b) ↔
        x ∈ friendsList s a ∧ x ∈ friendsList s b) ∧
    (BackendProfile.get_mutual_friends s a (Viewer.auth b)).toFinset =
      (BackendProfile.get_mutual_friends s b (Viewer.auth a)).toFinset ∧
    (b = a → BackendProfile.get_mutual_friends s a (Viewer.auth b) = []) ∧
    (friendsList s a = [] → BackendProfile.get_mutual_friends s a (Viewer.auth b) = []) ∧
    (friendsList s b = [] → BackendProfile.get_mutual_friends s a (Viewer.auth b) = []) := by
  refine ⟨?_, ?_, ?_, ?_, ?_⟩
  · intro hba x
    simp [BackendProfile.get_mutual_friends, if_neg hba, List.mem_filter]
  · by_cases hba : b = a
    · subst hba
      rfl
    · have hab : ¬ a = b := fun h => hba h.symm
      ext x
      simp [BackendProfile.get_mutual_friends, if_neg hba, if_neg hab, List.mem_filter]
      tauto
  · intro hba
    simp [BackendProfile.get_mutual_friends, if_pos hba]
  · intro h
    by_cases hba : b = a
    · simp [BackendProfile.get_mutual_friends, if_pos hba]
    · simp [BackendProfile.get_mutual_friends, if_neg hba, h]
  · intro h
    by_cases hba : b = a
    · simp [BackendProfile.get_mutual_friends, if_pos hba]
    · simp [BackendProfile.get_mutual_friends, if_neg hba, h, List.filter_eq_nil_iff]

/-- Witness for C4 in the state where 0 and 1 are friends. -/
theorem mutual_friends_spec_holds :
    (1 : Nat) ∈ BackendProfile.get_mutual_friends sAccepted 0 (Viewer.auth 1) ↔
      (1 : Nat) ∈ friendsList sAccepted 0 ∧ (1 : Nat) ∈ friendsList sAccepted 1 :=
  (mutual_friends_spec sAccepted 0 1).1 (by decide) 1

/-- C5: for every authenticated viewer the backend `get_friends` returns
exactly what the spec describes — the full friend list paginated for the
owner and friends, the paginated intersection of the two friend sets for
everyone else. -/
theorem get_friends_matches_spec (s : State) (owner v : Nat) (page size : Int) :
    BackendProfile.get_friends s owner (some (Viewer.auth v)) page size =
      visibleFriendsSpec s owner v page size := by
  by_cases h : v = owner ∨ (owner, v) ∈ s.friends
  · show (if v = owner ∨ Profile.is_friend_with s owner v = true then
        paginate (friendsList s owner) page size
      else paginate (BackendProfile.get_mutual_friends s owner (.auth v)) page size) =
      visibleFriendsSpec s owner v page size
    rw [visibleFriendsSpec, if_pos h, if_pos ?_]
    simpa [Profile.is_friend_with] using h
  · have hvo : ¬ v = owner := fun hh => h (Or.inl hh)
    have hnm : ¬ (owner, v) ∈ s.friends := fun hh => h (Or.inr hh)
    show (if v = owner ∨ Profile.is_friend_with s owner v = true then
        paginate (friendsList s owner) page size
      else paginate (BackendProfile.get_mutual_friends s owner (.auth v)) page size) =
      visibleFriendsSpec s owner v page size
    rw [visibleFriendsSpec, if_neg h, if_neg ?_]
    · rw [BackendProfile.get_mutual_friends]
      rw [if_neg hvo]
    · simpa [Profile.is_friend_with] using h

/-- C6 counterexample: after `send(0, 1)` and `accept`, profile 0 resending
to profile 1 is neither a self-request nor a pending duplicate, yet no
pending request is created — the `unique_together` constraint raises
`IntegrityError`. -/
theorem send_after_accept_not_created :
    (0 : Nat) ≠ 1 ∧
    hasPending sAccepted 0 1 = false ∧
    Profile.send_friend_request sAccepted 0 1 = Except.error Err.integrityError :=
  ⟨by decide, by decide, rfl⟩

/-- C6 as amended: `send` fails with the self-request error when sender and
receiver coincide, with the duplicate-request error when a pending request
exists for the exact ordered pair, and otherwise creates a pending request
only when no request row of any status exists for the pair — when a
non-pending row remains, the store's uniqueness constraint surfaces an
integrity error instead. -/
theorem send_friend_request_spec (s : State) (a b : Nat) :
    (b = a → Profile.send_friend_request s a b = Except.error Err.selfRequest) ∧
    (b ≠ a → hasPending s a b = true →
      Profile.send_friend_request s a b = Except.error Err.duplicateRequest) ∧
    (b ≠ a → hasPending s a b = false → hasPair s a b = true →
      Profile.send_friend_request s a b = Except.error Err.integrityError) ∧
    (b ≠ a → hasPending s a b = false → hasPair s a b = false →
      Profile.send_friend_request s a b = Except.ok { s with
        requests := s.requests ++ [⟨s.nextId, a, b, Status.pending⟩],
        nextId := s.nextId + 1 }) := by
  refine ⟨?_, ?_, ?_, ?_⟩
  · intro hba
    unfold Profile.send_friend_request
    rw [if_pos hba]
  · intro hba hp
    unfold Profile.send_friend_request
    rw [if_neg hba, if_pos hp]
  · intro hba hp hq
    unfold Profile.send_friend_request
    rw [if_neg hba, if_neg (by simp [hp]), if_pos hq]
  · intro hba hp hq
    unfold Profile.send_friend_request
    rw [if_neg hba, if_neg (by simp [hp]), if_neg (by simp [hq])]

/-- Witness for the amended C6: the very first `send(0, 1)` creates the
pending request. -/
theorem send_friend_request_spec_holds :
    Profile.send_friend_request initState 0 1 =
      Except.ok (State.mk [] [⟨0, 0, 1, Status.pending⟩] 1 [] []) :=
  (send_friend_request_spec initState 0 1).2.2.2 (by decide) (by decide) (by decide)

/-- C7: `reject` and `cancel` delete the request row exactly when it is
pending and do nothing otherwise, never touch any friend set, and sending a
request and then rejecting or canceling it restores the request table and
leaves the friend graph exactly as before the send. -/
theorem reject_cancel_spec :
    (∀ (s : State) (rid : Nat) (r : Req),
      s.requests.find? (fun q => decide (q.id = rid)) = some r →
      ((r.status = Status.pending →
        FriendRequest.reject s rid =
          { s with requests := s.requests.filter (fun q => decide (q.id ≠ rid)) } ∧
        FriendRequest.cancel s rid =
          { s with requests := s.requests.filter (fun q => decide (q.id ≠ rid)) }) ∧
      (r.status ≠ Status.pending →
        FriendRequest.reject s rid = s ∧ FriendRequest.cancel s rid = s))) ∧
    (∀ (s : State) (rid : Nat),
      (FriendRequest.reject s rid).friends = s.friends ∧
      (FriendRequest.cancel s rid).friends = s.friends) ∧
    (∀ (s : State) (a b : Nat) (s2 : State),
      Profile.send_friend_request s a b = Except.ok s2 →
      (∀ r ∈ s.requests, r.id < s.nextId) →
      ((FriendRequest.reject s2 s.nextId).requests = s.requests ∧
       (FriendRequest.reject s2 s.nextId).friends = s.friends ∧
       (FriendRequest.cancel s2 s.nextId).requests = s.requests ∧
       (FriendRequest.cancel s2 s.nextId).friends = s.friends)) := by
  have hrej : ∀ (s : State) (rid : Nat) (r : Req),
      s.requests.find? (fun q => decide (q.id = rid)) = some r →
      FriendRequest.reject s rid =
        (if r.status = Status.pending then
          { s with requests := s.requests.filter (fun q => decide (q.id ≠ rid)) }
        else s) ∧
      FriendRequest.cancel s rid =
        (if r.status = Status.pending then
          { s with requests := s.requests.filter (fun q => decide (q.id ≠ rid)) }
        else s) := by
    intro s rid r hfind
    constructor
    · unfold FriendRequest.reject
      rw [hfind]
    · unfold FriendRequest.cancel
      rw [hfind]
  have hfr : ∀ (s : State) (rid : Nat),
      (FriendRequest.reject s rid).friends = s.friends ∧
      (FriendRequest.cancel s rid).friends = s.friends := by
    intro s rid
    cases hfind : s.requests.find? (fun q => decide (q.id = rid)) with
    | none =>
      constructor
      · unfold FriendRequest.reject
        rw [hfind]
      · unfold FriendRequest.cancel
        rw [hfind]
    | some r =>
      obtain ⟨h1, h2⟩ := hrej s rid r hfind
      rw [h1, h2]
      by_cases hp : r.status = Status.pending
      · rw [if_pos hp]
        exact ⟨rfl, rfl⟩
      · rw [if_neg hp]
        exact ⟨rfl, rfl⟩
  refine ⟨?_, hfr, ?_⟩
  · intro s rid r hfind
    obtain ⟨h1, h2⟩ := hrej s rid r hfind
    constructor
    · intro hp
      rw [h1, h2, if_pos hp]
      exact ⟨rfl, rfl⟩
    · intro hp
      rw [h1, h2, if_neg hp]
      exact ⟨rfl, rfl⟩
  · intro s a b s2 hok hid
    obtain ⟨hab, hf, hr, _⟩ := send_cases s a b s2 hok
    have hnod : s.requests.find? (fun q => decide (q.id = s.nextId)) = none := by
      rw [List.find?_eq_none]
      intro q hq
      simp only [decide_eq_true_eq]
      exact Nat.ne_of_lt (hid q hq)
    have hfind : s2.requests.find? (fun q => decide (q.id = s.nextId)) =
        some ⟨s.nextId, a, b, Status.pending⟩ := by
      rw [hr, find?_append_left_none _ _ _ hnod]
      exact List.find?_cons_of_pos _ (by simp)
    have hfilter : s2.requests.filter (fun q => decide (q.id ≠ s.nextId)) = s.requests := by
      rw [hr, List.filter_append]
      have h1 : s.requests.filter (fun q => decide (q.id ≠ s.nextId)) = s.requests := by
        rw [List.filter_eq_self]
        intro q hq
        simp only [decide_eq_true_eq]
        exact Nat.ne_of_lt (hid q hq)
      have h2 : [(⟨s.nextId, a, b, Status.pending⟩ : Req)].filter
          (fun q => decide (q.id ≠ s.nextId)) = [] := by
        simp
      rw [h1, h2, List.append_nil]
    obtain ⟨h1, h2⟩ := hrej s2 s.nextId ⟨s.nextId, a, b, Status.pending⟩ hfind
    rw [h1, h2, if_pos rfl]
    exact ⟨hfilter, hf, hfilter, hf⟩

/-- Witness for C7: `send(0, 1)` then `reject` (or `cancel`) restores the
empty database. -/
theorem reject_cancel_spec_holds :
    (FriendRequest.reject sPending 0).requests = ([] : List Req) ∧
    (FriendRequest.reject sPending 0).friends = ([] : List (Nat × Nat)) ∧
    (FriendRequest.cancel sPending 0).requests = ([] : List Req) ∧
    (FriendRequest.cancel sPending 0).friends = ([] : List (Nat × Nat)) :=
  reject_cancel_spec.2.2 initState 0 1 sPending rfl (by intro r h; cases h)

/-- C8: `can_user_comment` holds exactly when the user is the post's author
or the user's profile is a friend of the post's author, and when it is false
the (spec-modelled) `addComment` write path fails with the permission-denied
error and returns the store unchanged. -/
theorem can_comment_spec (s : State) (post : Post) (user : Nat) (text : String) :
    (Comment.can_user_comment s post user = true ↔
      (user = post.author ∨ Profile.is_friend_with s user post.author = true)) ∧
    (Comment.can_user_comment s post user = false →
      addComment s post user text = (s, some Err.permissionDenied)) := by
  constructor
  · unfold Comment.can_user_comment
    by_cases h : user = post.author
    · simp [h]
    · simp [h]
  · intro h
    unfold addComment
    rw [h]
    rfl

/-- Witness for C8: a stranger to the author of an empty-database post is
denied. -/
theorem can_comment_spec_holds :
    addComment initState ⟨0, 0, 5⟩ 1 "hi" = (initState, some Err.permissionDenied) :=
  (can_comment_spec initState ⟨0, 0, 5⟩ 1 "hi").2 (by decide)

theorem paginate_size_zero {α : Type} (l : List α) (page : Int) :
    paginate l page 0 = Except.ok [] := by
  unfold paginate
  simp

theorem paginate_neg_page {α : Type} (l : List α) (page size : Int)
    (hp : page < 1) (hs : 0 < size) :
    paginate l page size = Except.error Err.negativeIndex := by
  unfold paginate
  have h1 : (page - 1) * size < 0 := mul_neg_of_neg_of_pos (by omega) hs
  simp only [if_pos (Or.inl h1)]

/-- C9 counterexample: `get_friends` with `pageSize = 0 < 1` does not fail at
all — it returns an empty page. -/
theorem get_friends_page_size_zero_ok :
    BackendProfile.get_friends initState 0 (some (Viewer.auth 0)) 1 0 =
      Except.ok [] := rfl

/-- C9 as amended: no paginated friend listing validates its page arguments
and no invalid-page error exists — `pageSize = 0` yields an empty page
successfully for any page number, while `page < 1` with a positive page size
surfaces the store's negative-indexing error instead. -/
theorem pagination_unvalidated_spec (s : State) (owner : Nat) (page size : Int) :
    (size = 0 →
      BackendProfile.get_friends s owner (some (Viewer.auth owner)) page size =
        Except.ok [] ∧
      AppProfile.visible_posts s owner (Viewer.auth owner) page size = Except.ok []) ∧
    (page < 1 → 0 < size →
      BackendProfile.get_friends s owner (some (Viewer.auth owner)) page size =
        Except.error Err.negativeIndex ∧
      AppProfile.visible_posts s owner (Viewer.auth owner) page size =
        Except.error Err.negativeIndex) := by
  have hgf : BackendProfile.get_friends s owner (some (Viewer.auth owner)) page size =
      paginate (friendsList s owner) page size := by
    show (if owner = owner ∨ Profile.is_friend_with s owner owner = true then
        paginate (friendsList s owner) page size
      else paginate (BackendProfile.get_mutual_friends s owner (.auth owner)) page size) =
      paginate (friendsList s owner) page size
    rw [if_pos (Or.inl rfl)]
  have hvp : AppProfile.visible_posts s owner (Viewer.auth owner) page size =
      paginate (postsOf s owner) page size := by
    show (if owner = owner ∨ Profile.is_friend_with s owner owner = true then
        paginate (postsOf s owner) page size
      else Except.ok []) = paginate (postsOf s owner) page size
    rw [if_pos (Or.inl rfl)]
  constructor
  · intro hsz
    subst hsz
    rw [hgf, hvp, paginate_size_zero, paginate_size_zero]
    exact ⟨rfl, rfl⟩
  · intro hp hs
    rw [hgf, hvp, paginate_neg_page _ _ _ hp hs, paginate_neg_page _ _ _ hp hs]
    exact ⟨rfl, rfl⟩

/-- Witness for the amended C9 at page 0 of size 10. -/
theorem pagination_unvalidated_spec_holds :
    BackendProfile.get_friends initState 0 (some (Viewer.auth 0)) 0 10 =
      Except.error Err.negativeIndex ∧
    AppProfile.visible_posts initState 0 (Viewer.auth 0) 0 10 =
      Except.error Err.negativeIndex :=
  (pagination_unvalidated_spec initState 0 0 10).2 (by decide) (by decide)

/-- C10: when an accepted request row survives for an ordered pair and no
pending one exists, resending along the same pair passes the pending-only
duplicate check but hits the pair-uniqueness constraint, surfacing the
store-level integrity error rather than the duplicate-request error. -/
theorem accepted_pair_resend_integrity (s : State) (a b : Nat)
    (hab : b ≠ a)
    (hnp : hasPending s a b = false)
    (hacc : ∃ r ∈ s.requests, r.sender = a ∧ r.receiver = b ∧ r.status = Status.accepted) :
    Profile.send_friend_request s a b = Except.error Err.integrityError := by
  have hpair : hasPair s a b = true := by
    obtain ⟨r, hr, h1, h2, _⟩ := hacc
    unfold hasPair
    rw [List.any_eq_true]
    exact ⟨r, hr, by simp [h1, h2]⟩
  unfold Profile.send_friend_request
  rw [if_neg hab, if_neg (by simp [hnp]), if_pos hpair]

/-- Witness for C10 at the state where the request from 0 to 1 was accepted. -/
theorem accepted_pair_resend_integrity_holds :
    Profile.send_friend_request sAccepted 0 1 = Except.error Err.integrityError :=
  accepted_pair_resend_integrity sAccepted 0 1 (by decide) (by decide)
    ⟨⟨0, 0, 1, Status.accepted⟩, by decide, rfl, rfl, rfl⟩
